import Mathlib

/-!
# Loitering probe of `src/main.c`

A shallow embedding of the signal-processing part of `src/main.c`: the
globals `x_history`, `avg_x_movement`, `threshold`, `is_loitering`, the
function `process_history`, and the buffer probe
`osd_sink_pad_buffer_probe`, followed by theorems about them.

Modelling conventions.

* A C `double` is an exact rational (`ℚ`): rounding, infinities and NaN
  are outside the model.  All statements below are about which values
  are combined, never about rounding.
* A `double[SIZE]` array is a function `Nat → ℚ`; the code only reads and
  writes indices below `SIZE`.
* `g_printf` output is not modelled.
* `frame_num` is a natural number (the index `frame_num % SIZE` is only
  inside the array for non-negative frame numbers).
-/

set_option autoImplicit false

namespace NvdsLoiter

/-! ## Constants and globals -/

/-- The constant `SIZE` (`#define SIZE 64`). -/
abbrev SIZE : Nat := 64

/-- Class id of a vehicle (`#define PGIE_CLASS_ID_VEHICLE 0`). -/
def PGIE_CLASS_ID_VEHICLE : Int := 0

/-- Class id of a person (`#define PGIE_CLASS_ID_PERSON 2`). -/
def PGIE_CLASS_ID_PERSON : Int := 2

/-- A `double buf[SIZE]` array, indexed by slot number. -/
abbrev Buf := Nat → ℚ

/-- The zero-initialised static array `x_history`. -/
def zeroBuf : Buf := fun _ => 0

/-! ## `process_history` -/

/-- First loop of `process_history`, entered with loop variable `i`:
`for (; i > 0; i--) buf[i] = fabs(buf[i] - buf[i - 1]);` -/
def deltaLoop : Nat → Buf → Buf
  | 0, buf => buf
  | i + 1, buf => deltaLoop i (Function.update buf (i + 1) |buf (i + 1) - buf i|)

/-- Second loop of `process_history`, entered with loop variable `i` and
`fuel = size - i` iterations left:
`for (; i < SIZE; i++) sum += buf[i];` -/
def sumLoop (buf : Buf) : Nat → Nat → ℚ → ℚ
  | 0, _, sum => sum
  | fuel + 1, i, sum => sumLoop buf fuel (i + 1) (sum + buf i)

/-- Body of `process_history` for an array of `size` slots: the returned
value and the array as the function leaves it (the array is passed by
pointer and written in place). -/
def process_history_sized (size : Nat) (buf : Buf) : ℚ × Buf :=
  let buf1 := deltaLoop (size - 1) buf
  let sum := sumLoop buf1 (size - 1) 1 0
  (sum / ((size : ℚ) - 1), buf1)

/-- The function `double process_history(double buf[SIZE])`. -/
def process_history (buf : Buf) : ℚ × Buf :=
  process_history_sized SIZE buf

/-- The function `double avg(double buf[SIZE])`: the sum of all `SIZE` slots, summed
from slot 0 upwards, divided by `SIZE`. -/
def avg (buf : Buf) : ℚ :=
  sumLoop buf SIZE 0 0 / (SIZE : ℚ)

/-! ## Metadata records

The record types come from the DeepStream headers (`gstnvdsmeta.h`); only
the fields the probe reads or writes are kept. -/

/-- The record `NvOSD_ColorParams`. -/
structure NvOSD_ColorParams where
  red : ℚ
  green : ℚ
  blue : ℚ
  alpha : ℚ
  deriving DecidableEq

/-- The record `NvOSD_RectParams`: the left edge and the border colour of a box. -/
structure NvOSD_RectParams where
  left : ℚ
  border_color : NvOSD_ColorParams
  deriving DecidableEq

/-- The record `NvDsObjectMeta`: one detection record. -/
structure NvDsObjectMeta where
  class_id : Int
  rect_params : NvOSD_RectParams
  deriving DecidableEq

/-- The record `NvOSD_FontParams`. -/
structure NvOSD_FontParams where
  font_name : String
  font_size : Nat
  font_color : NvOSD_ColorParams
  deriving DecidableEq

/-- The record `NvOSD_TextParams`.  The field `display_text` lists, in buffer order, the format
string and the argument of every `snprintf` written into the text buffer. -/
structure NvOSD_TextParams where
  display_text : List (String × ℚ)
  x_offset : Nat
  y_offset : Nat
  font_params : NvOSD_FontParams
  set_bg_clr : Int
  text_bg_clr : NvOSD_ColorParams
  deriving DecidableEq

/-- The record `NvDsDisplayMeta`: `num_labels` and the array `text_params`. -/
structure NvDsDisplayMeta where
  num_labels : Nat
  text_params : Nat → NvOSD_TextParams

/-- The record `NvDsFrameMeta`: frame number, detection records, and the display-meta
records attached to the frame so far. -/
structure NvDsFrameMeta where
  frame_num : Nat
  obj_meta_list : List NvDsObjectMeta
  display_meta_list : List NvDsDisplayMeta

/-! ## Program state -/

/-- The globals `x_history`, `avg_x_movement`, `threshold`, `is_loitering`,
followed by the two locals of `osd_sink_pad_buffer_probe` that live across
its loops (`num_rects`, `temp`); the locals are set anew at every call. -/
structure State where
  x_history : Buf
  avg_x_movement : ℚ
  threshold : ℚ
  is_loitering : Bool
  num_rects : Nat
  temp : ℚ

/-- The globals as the C initialisers leave them; the locals are not yet live. -/
def initState : State :=
  { x_history := zeroBuf, avg_x_movement := 0, threshold := 5, is_loitering := false,
    num_rects := 0, temp := 0 }

/-! ## `osd_sink_pad_buffer_probe` -/

/-- The increment `num_rects++` on a `guint`. -/
def incr_rects (st : State) : State :=
  { st with num_rects := (st.num_rects + 1) % 2 ^ 32 }

/-- Lines 145-149: the evaluation guarded by the due condition.
`avg_x_movement = process_history(x_history);
 is_loitering = fabs(avg_x_movement) < threshold;` -/
def evaluate_if_due (frame_num : Nat) (st : State) : State :=
  if frame_num % SIZE = 0 ∧ frame_num > SIZE - 1 then
    let r := process_history st.x_history
    { st with x_history := r.2, avg_x_movement := r.1,
              is_loitering := decide (|r.1| < st.threshold) }
  else st

/-- Lines 150-153: `border_color.red = 0.0; border_color.blue = 1.0;`
when `is_loitering` is set. -/
def colour_hint (st : State) (obj : NvDsObjectMeta) : NvDsObjectMeta :=
  if st.is_loitering then
    { obj with rect_params :=
        { obj.rect_params with border_color :=
            { obj.rect_params.border_color with red := 0, blue := 1 } } }
  else obj

/-- Body of the loop over `obj_meta_list` (lines 136-154) for one record. -/
def obj_body (frame_num : Nat) (st : State) (obj : NvDsObjectMeta) :
    State × NvDsObjectMeta :=
  let st1 := if obj.class_id = PGIE_CLASS_ID_VEHICLE then incr_rects st else st
  if obj.class_id = PGIE_CLASS_ID_PERSON then
    let st2 : State :=
      { incr_rects st1 with
          x_history := Function.update st1.x_history (frame_num % SIZE) obj.rect_params.left,
          temp := obj.rect_params.left }
    let st3 := evaluate_if_due frame_num st2
    (st3, colour_hint st3 obj)
  else (st1, obj)

/-- The loop over `obj_meta_list` (line 135): the state after the last record
and the records as the loop leaves them. -/
def obj_loop (frame_num : Nat) : State → List NvDsObjectMeta → State × List NvDsObjectMeta
  | st, [] => (st, [])
  | st, obj :: rest =>
    let r := obj_body frame_num st obj
    let r2 := obj_loop frame_num r.1 rest
    (r2.1, r.2 :: r2.2)

/-- Lines 157-182: the fields written into the acquired display-meta record. -/
def fill_display_meta (st : State) (dm : NvDsDisplayMeta) : NvDsDisplayMeta :=
  { num_labels := 1,
    text_params := Function.update dm.text_params 0
      { display_text := [("left = %lf ", st.avg_x_movement), ("top = %lf ", st.temp)],
        x_offset := 10,
        y_offset := 12,
        font_params :=
          { font_name := "Serif", font_size := 10,
            font_color := { red := 1, green := 1, blue := 1, alpha := 1 } },
        set_bg_clr := 1,
        text_bg_clr := { red := 0, green := 0, blue := 0, alpha := 1 } } }

/-- Body of the loop over `frame_meta_list` (lines 133-184) for one frame.
`acquired` is the record `nvds_acquire_display_meta_from_pool` hands out;
`nvds_add_display_meta_to_frame` appends to the frame's display-meta list. -/
def frame_body (acquired : NvDsDisplayMeta) (st : State) (frame_meta : NvDsFrameMeta) :
    State × NvDsFrameMeta :=
  let r := obj_loop frame_meta.frame_num st frame_meta.obj_meta_list
  let display_meta := fill_display_meta r.1 acquired
  (r.1, { frame_meta with
            obj_meta_list := r.2,
            display_meta_list := frame_meta.display_meta_list ++ [display_meta] })

/-- The loop over `frame_meta_list` (line 131). -/
def frame_loop (acquired : NvDsDisplayMeta) : State → List NvDsFrameMeta → State × List NvDsFrameMeta
  | st, [] => (st, [])
  | st, frame_meta :: rest =>
    let r := frame_body acquired st frame_meta
    let r2 := frame_loop acquired r.1 rest
    (r2.1, r.2 :: r2.2)

/-- One call of `osd_sink_pad_buffer_probe` on a batch: `num_rects = 0`, and
`temp` starts with the indeterminate value `temp0` (it has no initialiser). -/
def osd_sink_pad_buffer_probe (acquired : NvDsDisplayMeta) (st : State) (temp0 : ℚ)
    (frame_meta_list : List NvDsFrameMeta) : State × List NvDsFrameMeta :=
  frame_loop acquired { st with num_rects := 0, temp := temp0 } frame_meta_list

/-- One delivery of a buffer to the probe: the batch, and the value the
uninitialised local `temp` happens to hold on entry. -/
structure ProbeCall where
  temp0 : ℚ
  frame_meta_list : List NvDsFrameMeta

/-- The pipeline delivers buffers one after the other; the state after the
last call. -/
def run (acquired : NvDsDisplayMeta) (st : State) (calls : List ProbeCall) : State :=
  calls.foldl (fun s c => (osd_sink_pad_buffer_probe acquired s c.temp0 c.frame_meta_list).1) st

/-- The frames of a run, in the order they are processed. -/
def framesOf (calls : List ProbeCall) : List NvDsFrameMeta :=
  (calls.map ProbeCall.frame_meta_list).flatten

/-- A display-meta record with nothing in it. -/
def blankDisplayMeta : NvDsDisplayMeta :=
  { num_labels := 0,
    text_params := fun _ =>
      { display_text := [], x_offset := 0, y_offset := 0,
        font_params := { font_name := "", font_size := 0,
                         font_color := { red := 0, green := 0, blue := 0, alpha := 0 } },
        set_bg_clr := 0,
        text_bg_clr := { red := 0, green := 0, blue := 0, alpha := 0 } } }

/-- A Person record with the given left edge and a black border. -/
def personAt (left : ℚ) : NvDsObjectMeta :=
  { class_id := PGIE_CLASS_ID_PERSON,
    rect_params := { left := left,
                     border_color := { red := 0, green := 0, blue := 0, alpha := 0 } } }

/-! ## Reference notions used in the statements -/

/-- The delta average of a position history `p`: the mean of
`|p[i] - p[i-1]|` for `i = 1..SIZE-1`. -/
def deltaAverage (p : Buf) : ℚ :=
  (∑ i in Finset.Icc 1 (SIZE - 1), |p i - p (i - 1)|) / ((SIZE : ℚ) - 1)

/-- Whether a record is a Person record. -/
def isPerson (obj : NvDsObjectMeta) : Bool :=
  decide (obj.class_id = PGIE_CLASS_ID_PERSON)

/-- The position history once every Person record of a frame with number
`frame_num` has been recorded into `p`, in the order supplied. -/
def recordAll (p : Buf) (frame_num : Nat) (objs : List NvDsObjectMeta) : Buf :=
  objs.foldl
    (fun q obj => if isPerson obj then Function.update q (frame_num % SIZE) obj.rect_params.left
                  else q) p

/-- Left edge of the last Person record of a list of records, if there is one. -/
def lastPersonLeft (objs : List NvDsObjectMeta) : Option ℚ :=
  ((objs.filter isPerson).getLast?).map (fun obj => obj.rect_params.left)

/-- Whether a frame writes slot `i`: it contains a Person record and its
frame number is `i` modulo `SIZE`. -/
def writesSlot (i : Nat) (f : NvDsFrameMeta) : Bool :=
  decide (f.frame_num % SIZE = i) && f.obj_meta_list.any isPerson

/-- Whether a frame runs the evaluation: its number is a positive multiple of
`SIZE` and it contains a Person record. -/
def evaluates (f : NvDsFrameMeta) : Bool :=
  decide (0 < f.frame_num ∧ f.frame_num % SIZE = 0) && f.obj_meta_list.any isPerson

/-- The value slot `i` should hold after `frames` (in processing order):
the left edge of the last Person record of the most recent frame that
writes slot `i`, and `0` if there is no such frame. -/
def expectedSlot (frames : List NvDsFrameMeta) (i : Nat) : ℚ :=
  match frames.reverse.find? (writesSlot i) with
  | some f => (lastPersonLeft f.obj_meta_list).getD 0
  | none => 0

/-- No frame processed after the most recent writer of slot `i` (no frame
at all when the slot has no writer) ran the evaluation. -/
def noEvalSince (frames : List NvDsFrameMeta) (i : Nat) : Bool :=
  (frames.reverse.takeWhile (fun f => !writesSlot i f)).all (fun f => !evaluates f)

/-! ## The globals alone

The four globals evolve independently of the probe's locals and of the
display fields of the records; `Glob` and `gRun` describe that evolution
and are related to `run` by `run_glob` below. -/

/-- The four globals. -/
structure Glob where
  x_history : Buf
  avg_x_movement : ℚ
  threshold : ℚ
  is_loitering : Bool

/-- The globals of a state. -/
def State.glob (st : State) : Glob :=
  { x_history := st.x_history, avg_x_movement := st.avg_x_movement,
    threshold := st.threshold, is_loitering := st.is_loitering }

/-- Effect of `evaluate_if_due` on the globals. -/
def gEval (frame_num : Nat) (g : Glob) : Glob :=
  if frame_num % SIZE = 0 ∧ frame_num > SIZE - 1 then
    let r := process_history g.x_history
    { g with x_history := r.2, avg_x_movement := r.1,
             is_loitering := decide (|r.1| < g.threshold) }
  else g

/-- Effect of `obj_body` on the globals. -/
def gObj (frame_num : Nat) (g : Glob) (obj : NvDsObjectMeta) : Glob :=
  if obj.class_id = PGIE_CLASS_ID_PERSON then
    gEval frame_num
      { g with x_history := Function.update g.x_history (frame_num % SIZE) obj.rect_params.left }
  else g

/-- Effect of `frame_body` on the globals. -/
def gFrame (g : Glob) (f : NvDsFrameMeta) : Glob :=
  f.obj_meta_list.foldl (gObj f.frame_num) g

/-- Effect of processing a list of frames on the globals. -/
def gRun (g : Glob) (frames : List NvDsFrameMeta) : Glob :=
  frames.foldl gFrame g

/-! ## Concrete inputs -/

/-- A frame with the given number and records and no display meta yet. -/
def mkFrame (frame_num : Nat) (objs : List NvDsObjectMeta) : NvDsFrameMeta :=
  { frame_num := frame_num, obj_meta_list := objs, display_meta_list := [] }

/-- A probe call delivering one frame (batch size 1), `temp` starting at 0. -/
def oneFrame (frame_num : Nat) (objs : List NvDsObjectMeta) : ProbeCall :=
  { temp0 := 0, frame_meta_list := [mkFrame frame_num objs] }

/-- A record of the given class with the given left edge and a black border. -/
def recordOf (class_id : Int) (left : ℚ) : NvDsObjectMeta :=
  { class_id := class_id,
    rect_params := { left := left,
                     border_color := { red := 0, green := 0, blue := 0, alpha := 0 } } }

/-- The capacity-4 history `[10, 12, 9, 9]` of the scaled-down example. -/
def smallHistory : Buf := fun i => [10, 12, 9, 9].getD i 0

/-- A history holding 1 in slot 1 and 0 elsewhere. -/
def stepHistory : Buf := Function.update zeroBuf 1 1

/-- The initial state with the loitering flag raised. -/
def loiteringState : State := { initState with is_loitering := true }

/-- Three single-frame calls off the due cadence (frames 65, 66, 127), with a
Vehicle, a Person and a RoadSign record between them. -/
def offCadenceCalls : List ProbeCall :=
  [oneFrame 65 [personAt 7], oneFrame 66 [recordOf 0 4, personAt 9], oneFrame 127 [recordOf 3 1]]

/-- The state after frames 1, 2 and 3, each with one Person record, at left
edges 1, 6 and 4. -/
def zigzagState : State :=
  run blankDisplayMeta initState
    [oneFrame 1 [personAt 1], oneFrame 2 [personAt 6], oneFrame 3 [personAt 4]]

/-- Two single-frame calls: frame 1 with a Person record at 5, then frame 64
with a Person record at 0. -/
def clobberCalls : List ProbeCall :=
  [oneFrame 1 [personAt 5], oneFrame 64 [personAt 0]]

/-- The calls of `clobberCalls` followed by frame 65 with a Person record at 7. -/
def rewriteCalls : List ProbeCall :=
  clobberCalls ++ [oneFrame 65 [personAt 7]]

/-- The frames `first, first+1, ...` (`count` of them), each carrying one
Person record whose left edge is given by `pos` at the frame number. -/
def personFrames (pos : Nat → ℚ) (first count : Nat) : List NvDsFrameMeta :=
  (List.range' first count).map (fun n => mkFrame n [personAt (pos n)])

/-- Left edge equal to the frame number. -/
def linearPos (n : Nat) : ℚ := (n : ℚ)

/-- Left edge alternating between `x + 20` and `x - 20` from one frame to the
next; `phase` tells which of the two the even frames get. -/
def oscillating (x : ℚ) (phase : Bool) (n : Nat) : ℚ :=
  if (n % 2 == 0) = phase then x + 20 else x - 20

/-- Single-frame calls for frames 0..63, each with one Person record whose
left edge equals the frame number, then frame 64 with one Person record at `v`. -/
def linearCalls (v : ℚ) : List ProbeCall :=
  (List.range' 0 64).map (fun n => oneFrame n [personAt (linearPos n)])
    ++ [oneFrame 64 [personAt v]]

/-- Single-frame calls for frames 64..128, each with one Person record whose
left edge alternates between `x + 20` and `x - 20`. -/
def oscillatingCalls (x : ℚ) (phase : Bool) : List ProbeCall :=
  (List.range' 64 65).map (fun n => oneFrame n [personAt (oscillating x phase n)])

/-- The text of the annotation attached last to a frame: the format strings
and arguments written into `text_params[0].display_text`. -/
def annotationText (f : NvDsFrameMeta) : Option (List (String × ℚ)) :=
  f.display_meta_list.getLast?.map (fun dm => (dm.text_params 0).display_text)

/-- The state after one call delivering frame 1 with a Person record at 7. -/
def afterPersonAtSeven : State :=
  run blankDisplayMeta initState [oneFrame 1 [personAt 7]]

/-- A record with the loitering hint applied: `border_color.red = 0.0`,
`border_color.blue = 1.0`, everything else as it was. -/
def hinted (obj : NvDsObjectMeta) : NvDsObjectMeta :=
  { obj with rect_params :=
      { obj.rect_params with border_color :=
          { obj.rect_params.border_color with red := 0, blue := 1 } } }

/-- The records as the loop over `obj_meta_list` leaves them, computed from
the globals alone; related to `obj_loop` by `obj_loop_snd` below. -/
def gHints (frame_num : Nat) : Glob → List NvDsObjectMeta → List NvDsObjectMeta
  | _, [] => []
  | g, obj :: rest =>
    (if isPerson obj && (gObj frame_num g obj).is_loitering then hinted obj else obj)
      :: gHints frame_num (gObj frame_num g obj) rest

/-- The state after one call delivering frame 64 with a Person record at 0:
the first evaluation has run. -/
def afterFirstEvaluation : State :=
  run blankDisplayMeta initState [oneFrame 64 [personAt 0]]

end NvdsLoiter

namespace NvdsLoiter

/-! ## Lemmas on `process_history` -/

theorem deltaLoop_above (n : Nat) (buf : Buf) (j : Nat) (h : n < j) :
    deltaLoop n buf j = buf j := by
  induction n generalizing buf with
  | zero => rfl
  | succ k ih =>
    rw [deltaLoop, ih _ (by omega)]
    exact Function.update_noteq (by omega) _ _

theorem deltaLoop_zero_slot (n : Nat) (buf : Buf) : deltaLoop n buf 0 = buf 0 := by
  induction n generalizing buf with
  | zero => rfl
  | succ k ih =>
    rw [deltaLoop, ih]
    exact Function.update_noteq (by omega) _ _

theorem deltaLoop_slot (n : Nat) (buf : Buf) (j : Nat) (h1 : 1 ≤ j) (h2 : j ≤ n) :
    deltaLoop n buf j = |buf j - buf (j - 1)| := by
  induction n generalizing buf with
  | zero => omega
  | succ k ih =>
    rw [deltaLoop]
    by_cases hj : j = k + 1
    · subst hj
      rw [deltaLoop_above k _ (k + 1) (by omega)]
      simp
    · have hjk : j ≤ k := by omega
      rw [ih _ hjk]
      rw [Function.update_noteq (by omega), Function.update_noteq (by omega)]

theorem sumLoop_eq (buf : Buf) (fuel i : Nat) (sum : ℚ) :
    sumLoop buf fuel i sum = sum + ∑ k in Finset.range fuel, buf (i + k) := by
  induction fuel generalizing i sum with
  | zero => simp [sumLoop]
  | succ f ih =>
    rw [sumLoop, ih, Finset.sum_range_succ', add_assoc]
    congr 1
    rw [add_comm]
    congr 1
    · apply Finset.sum_congr rfl
      intro k _
      congr 1
      omega

/-- What `process_history_sized` returns, in closed form. -/
theorem process_history_sized_fst (size : Nat) (buf : Buf) :
    (process_history_sized size buf).1
      = (∑ i in Finset.Icc 1 (size - 1), |buf i - buf (i - 1)|) / ((size : ℚ) - 1) := by
  unfold process_history_sized
  simp only
  rw [sumLoop_eq, zero_add]
  congr 1
  rw [Finset.range_eq_Ico, Finset.sum_Ico_add (fun k => deltaLoop (size - 1) buf k) 0 (size - 1) 1]
  apply Finset.sum_congr
  · ext k
    simp only [Finset.mem_Ico, Finset.mem_Icc]
    omega
  · intro k hk
    simp only [Finset.mem_Icc] at hk
    exact deltaLoop_slot _ _ _ hk.1 hk.2

theorem process_history_fst (buf : Buf) : (process_history buf).1 = deltaAverage buf :=
  process_history_sized_fst SIZE buf

theorem process_history_snd (buf : Buf) : (process_history buf).2 = deltaLoop 63 buf := by
  have h : SIZE - 1 = 63 := by decide
  simp only [process_history, process_history_sized, h]

theorem process_history_snd_zero (buf : Buf) : (process_history buf).2 0 = buf 0 := by
  rw [process_history_snd]
  exact deltaLoop_zero_slot _ _

theorem process_history_snd_slot (buf : Buf) (j : Nat) (h1 : 1 ≤ j) (h2 : j ≤ 63) :
    (process_history buf).2 j = |buf j - buf (j - 1)| := by
  rw [process_history_snd]
  exact deltaLoop_slot _ _ _ h1 h2

theorem process_history_snd_above (buf : Buf) (j : Nat) (h : 63 < j) :
    (process_history buf).2 j = buf j := by
  rw [process_history_snd]
  exact deltaLoop_above _ _ _ h

theorem process_history_snd_eq (buf : Buf) :
    (process_history buf).2
      = fun j => if j = 0 then buf 0 else if j ≤ 63 then |buf j - buf (j - 1)| else buf j := by
  funext j
  by_cases h0 : j = 0
  · subst h0
    rw [process_history_snd_zero]
    rfl
  · by_cases h1 : j ≤ 63
    · rw [process_history_snd_slot buf j (by omega) h1]
      simp only [h0, h1, if_false, if_true]
    · rw [process_history_snd_above buf j (by omega)]
      simp only [h0, h1, if_false]

theorem deltaAverage_nonneg (p : Buf) : 0 ≤ deltaAverage p := by
  unfold deltaAverage
  apply div_nonneg
  · exact Finset.sum_nonneg (fun i _ => abs_nonneg _)
  · norm_num

/-! ## From the probe to the globals -/

theorem evaluate_if_due_glob (n : Nat) (st : State) :
    (evaluate_if_due n st).glob = gEval n st.glob := by
  unfold evaluate_if_due gEval
  split <;> rfl

theorem obj_body_glob (n : Nat) (st : State) (obj : NvDsObjectMeta) :
    (obj_body n st obj).1.glob = gObj n st.glob obj := by
  unfold obj_body gObj
  by_cases hp : obj.class_id = PGIE_CLASS_ID_PERSON
  · simp only [hp, if_true]
    rw [evaluate_if_due_glob]
    congr 1
  · simp only [hp, if_false]
    split <;> rfl

theorem obj_loop_glob (n : Nat) (st : State) (objs : List NvDsObjectMeta) :
    (obj_loop n st objs).1.glob = objs.foldl (gObj n) st.glob := by
  induction objs generalizing st with
  | nil => rfl
  | cons o rest ih =>
    simp only [obj_loop, List.foldl_cons]
    rw [ih, obj_body_glob]

theorem frame_body_glob (a : NvDsDisplayMeta) (st : State) (f : NvDsFrameMeta) :
    (frame_body a st f).1.glob = gFrame st.glob f := by
  simp only [frame_body, gFrame, obj_loop_glob]

theorem frame_loop_glob (a : NvDsDisplayMeta) (st : State) (fs : List NvDsFrameMeta) :
    (frame_loop a st fs).1.glob = gRun st.glob fs := by
  induction fs generalizing st with
  | nil => rfl
  | cons f rest ih =>
    simp only [frame_loop, gRun, List.foldl_cons]
    rw [ih, frame_body_glob]
    rfl

theorem probe_glob (a : NvDsDisplayMeta) (st : State) (t : ℚ) (fs : List NvDsFrameMeta) :
    (osd_sink_pad_buffer_probe a st t fs).1.glob = gRun st.glob fs := by
  unfold osd_sink_pad_buffer_probe
  rw [frame_loop_glob]
  rfl

theorem gRun_append (g : Glob) (xs ys : List NvDsFrameMeta) :
    gRun g (xs ++ ys) = gRun (gRun g xs) ys := by
  simp [gRun, List.foldl_append]

/-- The globals after a run are those of `gRun` on the frames of the run. -/
theorem run_glob (a : NvDsDisplayMeta) (st : State) (calls : List ProbeCall) :
    (run a st calls).glob = gRun st.glob (framesOf calls) := by
  induction calls generalizing st with
  | nil => rfl
  | cons c rest ih =>
    have h1 : run a st (c :: rest)
        = run a (osd_sink_pad_buffer_probe a st c.temp0 c.frame_meta_list).1 rest := rfl
    have h2 : framesOf (c :: rest) = c.frame_meta_list ++ framesOf rest := by
      simp [framesOf]
    rw [h1, h2, ih, probe_glob, gRun_append]

/-! ## One frame, on the globals -/

theorem due_iff (n : Nat) : (n % SIZE = 0 ∧ n > SIZE - 1) ↔ (0 < n ∧ n % 64 = 0) := by
  simp only [SIZE]
  omega

theorem gEval_not_due (n : Nat) (g : Glob) (h : ¬ (0 < n ∧ n % 64 = 0)) : gEval n g = g := by
  unfold gEval
  rw [if_neg]
  rwa [due_iff]

theorem gEval_due (n : Nat) (g : Glob) (h : 0 < n ∧ n % 64 = 0) :
    gEval n g = { x_history := (process_history g.x_history).2,
                  avg_x_movement := deltaAverage g.x_history,
                  threshold := g.threshold,
                  is_loitering := decide (deltaAverage g.x_history < g.threshold) } := by
  unfold gEval
  rw [if_pos ((due_iff n).2 h)]
  simp only [process_history_fst, abs_of_nonneg (deltaAverage_nonneg _)]

theorem gEval_threshold (n : Nat) (g : Glob) : (gEval n g).threshold = g.threshold := by
  unfold gEval
  split <;> rfl

theorem gEval_slot_zero (n : Nat) (g : Glob) : (gEval n g).x_history 0 = g.x_history 0 := by
  by_cases h : 0 < n ∧ n % 64 = 0
  · rw [gEval_due n g h]
    dsimp only
    rw [process_history_snd_zero]
  · rw [gEval_not_due n g h]

theorem gObj_not_person (n : Nat) (g : Glob) (obj : NvDsObjectMeta)
    (h : isPerson obj = false) : gObj n g obj = g := by
  unfold gObj
  rw [if_neg]
  simpa [isPerson] using h

theorem gObj_person (n : Nat) (g : Glob) (obj : NvDsObjectMeta)
    (h : isPerson obj = true) :
    gObj n g obj
      = gEval n { g with x_history := Function.update g.x_history (n % SIZE) obj.rect_params.left } := by
  unfold gObj
  rw [if_pos]
  simpa [isPerson] using h

theorem foldl_gObj_threshold (n : Nat) (g : Glob) (objs : List NvDsObjectMeta) :
    (objs.foldl (gObj n) g).threshold = g.threshold := by
  induction objs generalizing g with
  | nil => rfl
  | cons o rest ih =>
    rw [List.foldl_cons, ih]
    unfold gObj
    split
    · rw [gEval_threshold]
    · rfl

theorem gFrame_threshold (g : Glob) (f : NvDsFrameMeta) :
    (gFrame g f).threshold = g.threshold :=
  foldl_gObj_threshold _ _ _

theorem foldl_gObj_no_person (n : Nat) (g : Glob) (objs : List NvDsObjectMeta)
    (h : objs.any isPerson = false) : objs.foldl (gObj n) g = g := by
  induction objs generalizing g with
  | nil => rfl
  | cons o rest ih =>
    simp only [List.any_cons, Bool.or_eq_false_iff] at h
    rw [List.foldl_cons, gObj_not_person n g o h.1, ih g h.2]

/-- A frame without a Person record leaves the globals alone. -/
theorem gFrame_no_person (g : Glob) (f : NvDsFrameMeta)
    (h : f.obj_meta_list.any isPerson = false) : gFrame g f = g :=
  foldl_gObj_no_person _ _ _ h

theorem recordAll_no_person (p : Buf) (n : Nat) (objs : List NvDsObjectMeta)
    (h : objs.any isPerson = false) : recordAll p n objs = p := by
  induction objs generalizing p with
  | nil => rfl
  | cons o rest ih =>
    simp only [List.any_cons, Bool.or_eq_false_iff] at h
    simp only [recordAll, List.foldl_cons, h.1]
    exact ih p h.2

theorem recordAll_cons (p : Buf) (n : Nat) (o : NvDsObjectMeta) (rest : List NvDsObjectMeta) :
    recordAll p n (o :: rest)
      = recordAll (if isPerson o then Function.update p (n % SIZE) o.rect_params.left else p)
          n rest := rfl

theorem foldl_gObj_not_due (n : Nat) (g : Glob) (objs : List NvDsObjectMeta)
    (h : ¬ (0 < n ∧ n % 64 = 0)) :
    objs.foldl (gObj n) g = { g with x_history := recordAll g.x_history n objs } := by
  induction objs generalizing g with
  | nil => rfl
  | cons o rest ih =>
    rw [List.foldl_cons, ih, recordAll_cons]
    cases hp : isPerson o
    · rw [gObj_not_person n g o hp]
      simp
    · rw [gObj_person n g o hp, gEval_not_due n _ h]
      simp

/-- Off a due frame only the history changes: every Person record is recorded. -/
theorem gFrame_not_due (g : Glob) (f : NvDsFrameMeta)
    (h : ¬ (0 < f.frame_num ∧ f.frame_num % 64 = 0)) :
    gFrame g f = { g with x_history := recordAll g.x_history f.frame_num f.obj_meta_list } :=
  foldl_gObj_not_due _ _ _ h

theorem lastPersonLeft_nil : lastPersonLeft [] = none := rfl

theorem lastPersonLeft_cons_not_person (o : NvDsObjectMeta) (rest : List NvDsObjectMeta)
    (h : isPerson o = false) : lastPersonLeft (o :: rest) = lastPersonLeft rest := by
  simp [lastPersonLeft, List.filter_cons, h]

theorem lastPersonLeft_cons_person (o : NvDsObjectMeta) (rest : List NvDsObjectMeta)
    (h : isPerson o = true) (d : ℚ) :
    (lastPersonLeft (o :: rest)).getD d = (lastPersonLeft rest).getD o.rect_params.left := by
  simp only [lastPersonLeft, List.filter_cons, h, if_true]
  cases hf : rest.filter isPerson with
  | nil => simp
  | cons x xs =>
    rw [List.getLast?_cons_cons, List.getLast?_eq_getLast _ (List.cons_ne_nil x xs)]
    simp

theorem lastPersonLeft_isSome (objs : List NvDsObjectMeta) :
    (lastPersonLeft objs).isSome = objs.any isPerson := by
  induction objs with
  | nil => rfl
  | cons o rest ih =>
    cases hp : isPerson o
    · rw [lastPersonLeft_cons_not_person o rest hp, ih]
      simp [hp]
    · simp only [List.any_cons, hp, Bool.true_or]
      simp only [lastPersonLeft, List.filter_cons, hp, if_true]
      cases hf : rest.filter isPerson with
      | nil => simp
      | cons x xs =>
        rw [List.getLast?_cons_cons, List.getLast?_eq_getLast _ (List.cons_ne_nil x xs)]
        simp

theorem recordAll_apply (p : Buf) (n : Nat) (objs : List NvDsObjectMeta) (i : Nat) :
    recordAll p n objs i
      = if i = n % SIZE then (lastPersonLeft objs).getD (p i) else p i := by
  induction objs generalizing p with
  | nil => simp [recordAll, lastPersonLeft]
  | cons o rest ih =>
    rw [recordAll_cons, ih]
    by_cases hi : i = n % SIZE
    · simp only [hi, if_true]
      cases hp : isPerson o
      · rw [lastPersonLeft_cons_not_person o rest hp]
        simp
      · rw [lastPersonLeft_cons_person o rest hp]
        simp
    · simp only [hi, if_false]
      split
      · exact Function.update_noteq hi _ _
      · rfl

/-- Whatever the frame number, the slot of the frame ends up holding the left
edge of the last Person record (and its old value without one). -/
theorem foldl_gObj_own_slot (n : Nat) (g : Glob) (objs : List NvDsObjectMeta) :
    (objs.foldl (gObj n) g).x_history (n % SIZE)
      = (lastPersonLeft objs).getD (g.x_history (n % SIZE)) := by
  induction objs generalizing g with
  | nil => rfl
  | cons o rest ih =>
    rw [List.foldl_cons, ih]
    cases hp : isPerson o
    · rw [gObj_not_person n g o hp, lastPersonLeft_cons_not_person o rest hp]
    · rw [gObj_person n g o hp, lastPersonLeft_cons_person o rest hp]
      congr 1
      by_cases hd : 0 < n ∧ n % 64 = 0
      · have h0 : n % SIZE = 0 := hd.2
        rw [h0, gEval_slot_zero]
        simp
      · rw [gEval_not_due n _ hd]
        simp

theorem gFrame_own_slot (g : Glob) (f : NvDsFrameMeta) :
    (gFrame g f).x_history (f.frame_num % SIZE)
      = (lastPersonLeft f.obj_meta_list).getD (g.x_history (f.frame_num % SIZE)) :=
  foldl_gObj_own_slot _ _ _

/-! ## The claims -/

/-- C1: for every 64-slot buffer `b`, `process_history b` returns the sum over
`i = 1..63` of `|b[i] - b[i-1]|`, taken over the values on entry, divided by
63 (the pair of slots 63 and 0 is not in the sum).  Scaled down to capacity 4,
the positions `[10, 12, 9, 9]` give `(2 + 3 + 0) / 3 = 5/3`. -/
theorem process_history_returns_delta_mean (b : Buf) :
    (process_history b).1 = (∑ i in Finset.Icc 1 63, |b i - b (i - 1)|) / 63
    ∧ (process_history_sized 4 smallHistory).1 = 5 / 3 := by
  constructor
  · rw [process_history_fst, deltaAverage]
    norm_num
  · decide!

/-- C2: when the due evaluation runs, for every history buffer and threshold,
`is_loitering` afterwards is true exactly when the average delta returned by
`process_history` is strictly below the threshold, and an average equal to
the threshold gives `false`; stated for the evaluation itself and for the
Person record of a due frame that triggers it. -/
theorem due_evaluation_is_strict (n : Nat) (st : State) (obj : NvDsObjectMeta)
    (hdue : 0 < n ∧ n % 64 = 0) (hperson : obj.class_id = PGIE_CLASS_ID_PERSON) :
    ((evaluate_if_due n st).avg_x_movement = (process_history st.x_history).1
      ∧ ((evaluate_if_due n st).is_loitering = true
          ↔ (process_history st.x_history).1 < st.threshold)
      ∧ ((process_history st.x_history).1 = st.threshold
          → (evaluate_if_due n st).is_loitering = false))
    ∧ ((obj_body n st obj).1.avg_x_movement
          = (process_history (Function.update st.x_history (n % SIZE) obj.rect_params.left)).1
      ∧ ((obj_body n st obj).1.is_loitering = true
          ↔ (process_history (Function.update st.x_history (n % SIZE) obj.rect_params.left)).1
              < st.threshold)) := by
  have key : ∀ g : Glob, (gEval n g).avg_x_movement = (process_history g.x_history).1
      ∧ ((gEval n g).is_loitering = true ↔ (process_history g.x_history).1 < g.threshold) := by
    intro g
    rw [gEval_due n g hdue, process_history_fst]
    simp
  have e1 : (evaluate_if_due n st).avg_x_movement = (gEval n st.glob).avg_x_movement :=
    congrArg Glob.avg_x_movement (evaluate_if_due_glob n st)
  have e2 : (evaluate_if_due n st).is_loitering = (gEval n st.glob).is_loitering :=
    congrArg Glob.is_loitering (evaluate_if_due_glob n st)
  have e3 : (obj_body n st obj).1.avg_x_movement = (gObj n st.glob obj).avg_x_movement :=
    congrArg Glob.avg_x_movement (obj_body_glob n st obj)
  have e4 : (obj_body n st obj).1.is_loitering = (gObj n st.glob obj).is_loitering :=
    congrArg Glob.is_loitering (obj_body_glob n st obj)
  have hp : isPerson obj = true := by simpa [isPerson] using hperson
  refine ⟨⟨?_, ?_, ?_⟩, ?_, ?_⟩
  · rw [e1]
    exact (key st.glob).1
  · rw [e2]
    exact (key st.glob).2
  · intro heq
    rw [e2]
    have h := (key st.glob).2
    have hnot : ¬ (process_history st.x_history).1 < st.threshold := by
      rw [heq]
      exact lt_irrefl _
    cases hb : (gEval n st.glob).is_loitering
    · rfl
    · exact absurd (h.1 hb) hnot
  · rw [e3, gObj_person n _ obj hp]
    exact (key _).1
  · rw [e4, gObj_person n _ obj hp]
    exact (key _).2

/-- Witness of C2: frame 64, the initial state, a Person record at 3. -/
theorem due_evaluation_is_strict_witness :
    ((evaluate_if_due 64 initState).avg_x_movement = (process_history initState.x_history).1
      ∧ ((evaluate_if_due 64 initState).is_loitering = true
          ↔ (process_history initState.x_history).1 < initState.threshold)
      ∧ ((process_history initState.x_history).1 = initState.threshold
          → (evaluate_if_due 64 initState).is_loitering = false))
    ∧ ((obj_body 64 initState (personAt 3)).1.avg_x_movement
          = (process_history
              (Function.update initState.x_history (64 % SIZE) (personAt 3).rect_params.left)).1
      ∧ ((obj_body 64 initState (personAt 3)).1.is_loitering = true
          ↔ (process_history
              (Function.update initState.x_history (64 % SIZE) (personAt 3).rect_params.left)).1
              < initState.threshold)) :=
  due_evaluation_is_strict 64 initState (personAt 3) (by decide) rfl

theorem gRun_not_due_keeps (g : Glob) (fs : List NvDsFrameMeta)
    (h : ∀ f ∈ fs, ¬ (0 < f.frame_num ∧ f.frame_num % 64 = 0)) :
    (gRun g fs).avg_x_movement = g.avg_x_movement
      ∧ (gRun g fs).is_loitering = g.is_loitering := by
  induction fs generalizing g with
  | nil => exact ⟨rfl, rfl⟩
  | cons f rest ih =>
    have hf := h f (List.mem_cons_self _ _)
    have hrest := ih (gFrame g f) (fun x hx => h x (List.mem_cons_of_mem _ hx))
    have e : gRun g (f :: rest) = gRun (gFrame g f) rest := rfl
    rw [e, hrest.1, hrest.2, gFrame_not_due g f hf]
    exact ⟨rfl, rfl⟩

/-- C3: a frame whose number is not a positive multiple of 64 (frame 0
included), whatever its records, leaves `avg_x_movement` and `is_loitering`
as they were; hence they stay as they were over any run of such frames. -/
theorem off_cadence_frame_keeps_evaluation (a : NvDsDisplayMeta) (st : State)
    (f : NvDsFrameMeta) (calls : List ProbeCall)
    (hf : ¬ (0 < f.frame_num ∧ f.frame_num % 64 = 0))
    (hcalls : ∀ g ∈ framesOf calls, ¬ (0 < g.frame_num ∧ g.frame_num % 64 = 0)) :
    ((frame_body a st f).1.avg_x_movement = st.avg_x_movement
      ∧ (frame_body a st f).1.is_loitering = st.is_loitering)
    ∧ ((run a st calls).avg_x_movement = st.avg_x_movement
      ∧ (run a st calls).is_loitering = st.is_loitering) := by
  have h1 := frame_body_glob a st f
  rw [gFrame_not_due st.glob f hf] at h1
  have h2 := run_glob a st calls
  have h3 := gRun_not_due_keeps st.glob (framesOf calls) hcalls
  refine ⟨⟨congrArg Glob.avg_x_movement h1, congrArg Glob.is_loitering h1⟩, ?_, ?_⟩
  · exact (congrArg Glob.avg_x_movement h2).trans h3.1
  · exact (congrArg Glob.is_loitering h2).trans h3.2

/-- Witness of C3: frame 0 with a Person record, then frames 65, 66 and 127,
starting with the flag raised. -/
theorem off_cadence_frame_keeps_evaluation_witness :
    ((frame_body blankDisplayMeta loiteringState (mkFrame 0 [personAt 1])).1.avg_x_movement
        = loiteringState.avg_x_movement
      ∧ (frame_body blankDisplayMeta loiteringState (mkFrame 0 [personAt 1])).1.is_loitering
        = loiteringState.is_loitering)
    ∧ ((run blankDisplayMeta loiteringState offCadenceCalls).avg_x_movement
        = loiteringState.avg_x_movement
      ∧ (run blankDisplayMeta loiteringState offCadenceCalls).is_loitering
        = loiteringState.is_loitering) :=
  off_cadence_frame_keeps_evaluation blankDisplayMeta loiteringState (mkFrame 0 [personAt 1])
    offCadenceCalls (by decide) (by decide)

/-- C5, as the claim states it, fails: on the history holding 1 in slot 1 and
0 elsewhere, `process_history` leaves 1 in slot 2, which held 0 on entry. -/
theorem process_history_overwrites_slot :
    (process_history stepHistory).2 2 = 1 ∧ stepHistory 2 = 0
      ∧ (process_history stepHistory).2 ≠ stepHistory := by
  have h1 : (process_history stepHistory).2 2 = 1 := by
    rw [process_history_snd_slot _ 2 (by decide) (by decide)]
    decide!
  have h2 : stepHistory 2 = 0 := by decide!
  refine ⟨h1, h2, ?_⟩
  intro h
  rw [h, h2] at h1
  exact absurd h1 (by decide)

/-- C5, amended: `process_history` works in place; for every buffer `b` it
leaves slot 0 as it was on entry and every slot `i` in `1..63` holding
`|b[i] - b[i-1]|` of the entry values. -/
theorem process_history_leaves_deltas (b : Buf) (i : Nat) (hi : i < 64) :
    (process_history b).2 i = if i = 0 then b 0 else |b i - b (i - 1)| := by
  by_cases h0 : i = 0
  · subst h0
    rw [process_history_snd_zero]
    rfl
  · rw [if_neg h0]
    exact process_history_snd_slot b i (by omega) (by omega)

/-- Witness of the amended C5: slot 2 of the history holding 1 in slot 1. -/
theorem process_history_leaves_deltas_witness :
    (process_history stepHistory).2 2
      = if 2 = 0 then stepHistory 0 else |stepHistory 2 - stepHistory (2 - 1)| :=
  process_history_leaves_deltas stepHistory 2 (by decide)

/-- C9: a frame with number `n` that contains a Person record leaves in
`x_history[n mod 64]` the left edge of its last Person record, in the order
the records are supplied; when `n` is not a positive multiple of 64 every
other slot keeps its value; a frame without a Person record changes no slot. -/
theorem frame_records_last_person (a : NvDsDisplayMeta) (st : State) (f : NvDsFrameMeta) :
    (f.obj_meta_list.any isPerson = true →
      lastPersonLeft f.obj_meta_list
          = some ((frame_body a st f).1.x_history (f.frame_num % 64))
        ∧ (¬ (0 < f.frame_num ∧ f.frame_num % 64 = 0) →
            ∀ j, j ≠ f.frame_num % 64 →
              (frame_body a st f).1.x_history j = st.x_history j))
    ∧ (f.obj_meta_list.any isPerson = false →
        (frame_body a st f).1.x_history = st.x_history) := by
  have hg := congrArg Glob.x_history (frame_body_glob a st f)
  have hx : (frame_body a st f).1.x_history = (gFrame st.glob f).x_history := hg
  refine ⟨fun hp => ⟨?_, ?_⟩, ?_⟩
  · rw [hx]
    have hown := gFrame_own_slot st.glob f
    have hsome := lastPersonLeft_isSome f.obj_meta_list
    rw [hp] at hsome
    obtain ⟨v, hv⟩ := Option.isSome_iff_exists.1 hsome
    rw [hv] at hown ⊢
    rw [hown]
    rfl
  · intro hnd j hj
    rw [hx, gFrame_not_due st.glob f hnd]
    show recordAll st.x_history f.frame_num f.obj_meta_list j = st.x_history j
    rw [recordAll_apply, if_neg hj]
  · intro hno
    rw [hx, gFrame_no_person st.glob f hno]
    rfl

/-- Witness of C9: frame 66 with a Vehicle at 4 and Persons at 9 and 2. -/
theorem frame_records_last_person_witness :
    lastPersonLeft [recordOf 0 4, personAt 9, personAt 2]
      = some ((frame_body blankDisplayMeta initState
          (mkFrame 66 [recordOf 0 4, personAt 9, personAt 2])).1.x_history (66 % 64)) :=
  ((frame_records_last_person blankDisplayMeta initState
      (mkFrame 66 [recordOf 0 4, personAt 9, personAt 2])).1 (by decide)).1

theorem obj_loop_length (n : Nat) (st : State) (objs : List NvDsObjectMeta) :
    (obj_loop n st objs).2.length = objs.length := by
  induction objs generalizing st with
  | nil => rfl
  | cons o rest ih => simp [obj_loop, ih]

/-- C10: for every frame and every list of records in it (the empty list
included), processing the frame attaches exactly one display-meta record to
that frame, with `num_labels = 1`; and one call of the probe does so for
every frame of its batch. -/
theorem one_display_meta_per_frame (a : NvDsDisplayMeta) (st : State) (f : NvDsFrameMeta)
    (t : ℚ) (batch : List NvDsFrameMeta) :
    (∃ dm, (frame_body a st f).2.display_meta_list = f.display_meta_list ++ [dm]
        ∧ dm.num_labels = 1)
    ∧ (frame_body a st f).2.display_meta_list.length = f.display_meta_list.length + 1
    ∧ List.Forall₂
        (fun fin fout => fout.frame_num = fin.frame_num
          ∧ ∃ dm, fout.display_meta_list = fin.display_meta_list ++ [dm] ∧ dm.num_labels = 1)
        batch (osd_sink_pad_buffer_probe a st t batch).2 := by
  refine ⟨⟨_, rfl, rfl⟩, by simp [frame_body], ?_⟩
  unfold osd_sink_pad_buffer_probe
  generalize ({ st with num_rects := 0, temp := t } : State) = s
  induction batch generalizing s with
  | nil => exact List.Forall₂.nil
  | cons g rest ih =>
    simp only [frame_loop]
    exact List.Forall₂.cons ⟨rfl, _, rfl, rfl⟩ (ih _)

theorem foldl_gObj_due_one_person (n : Nat) (g : Glob) (objs : List NvDsObjectMeta)
    (h : (objs.filter isPerson).length = 1) :
    objs.foldl (gObj n) g = gEval n { g with x_history := recordAll g.x_history n objs } := by
  induction objs generalizing g with
  | nil => simp at h
  | cons o rest ih =>
    rw [List.foldl_cons, recordAll_cons]
    cases hp : isPerson o
    · rw [gObj_not_person n g o hp]
      simp only [List.filter_cons, hp] at h
      rw [ih g (by simpa using h)]
      simp
    · simp only [List.filter_cons, hp, if_true, List.length_cons, add_left_eq_self,
        List.length_eq_zero] at h
      have hno : rest.any isPerson = false := by
        rw [List.any_eq_false]
        intro x hx hpx
        have : x ∈ rest.filter isPerson := List.mem_filter.2 ⟨hx, hpx⟩
        rw [h] at this
        exact absurd this (List.not_mem_nil _)
      rw [foldl_gObj_no_person n _ rest hno, gObj_person n g o hp,
        recordAll_no_person _ n rest hno]
      simp

theorem any_isPerson_eq_false_of_filter (objs : List NvDsObjectMeta)
    (h : (objs.filter isPerson).length = 0) : objs.any isPerson = false := by
  rw [List.any_eq_false]
  intro x hx hpx
  have : x ∈ objs.filter isPerson := List.mem_filter.2 ⟨hx, hpx⟩
  rw [List.length_eq_zero.1 h] at this
  exact absurd this (List.not_mem_nil _)

/-- C4, as the claim states it, fails.  From the state left by Person records
at 1, 6 and 4 in frames 1, 2 and 3, the delta average of the history is 4/21;
frame 64 without any record leaves the stored average at 0, and frame 64 with
two Person records at 0 leaves it at 2/9, although the recorded history still
has delta average 4/21. -/
theorem due_frame_not_always_evaluated_once :
    (0 < (mkFrame 64 []).frame_num ∧ (mkFrame 64 []).frame_num % 64 = 0)
    ∧ (frame_body blankDisplayMeta zigzagState (mkFrame 64 [])).1.avg_x_movement = 0
    ∧ deltaAverage (recordAll zigzagState.x_history 64 []) = 4 / 21
    ∧ (frame_body blankDisplayMeta zigzagState
        (mkFrame 64 [personAt 0, personAt 0])).1.avg_x_movement = 2 / 9
    ∧ deltaAverage (recordAll zigzagState.x_history 64 [personAt 0, personAt 0]) = 4 / 21 := by
  refine ⟨by decide, by decide!, ?_, ?_, ?_⟩
  · rw [← process_history_fst]
    decide!
  · have h := congrArg Glob.avg_x_movement
      (frame_body_glob blankDisplayMeta zigzagState (mkFrame 64 [personAt 0, personAt 0]))
    refine h.trans ?_
    simp only [gFrame, mkFrame, List.foldl_cons, List.foldl_nil]
    rw [gObj_person 64 _ (personAt 0) rfl, gEval_due 64 _ (by decide),
      gObj_person 64 _ (personAt 0) rfl, gEval_due 64 _ (by decide)]
    dsimp only
    rw [process_history_snd_eq, ← process_history_fst]
    decide!
  · rw [← process_history_fst]
    decide!

/-- C4, amended: on a frame whose number is a positive multiple of 64 and
that holds exactly one Person record (among any other records), the stored
average afterwards is the delta average of the history as it stands once the
records have been recorded, and `is_loitering` is (that average < threshold);
on such a frame without a Person record the evaluation is not performed, and
both values stay as they were. -/
theorem due_frame_single_person_evaluated (a : NvDsDisplayMeta) (st : State)
    (f : NvDsFrameMeta) (hdue : 0 < f.frame_num ∧ f.frame_num % 64 = 0)
    (hone : (f.obj_meta_list.filter isPerson).length ≤ 1) :
    (f.obj_meta_list.any isPerson = true →
      (frame_body a st f).1.avg_x_movement
          = deltaAverage (recordAll st.x_history f.frame_num f.obj_meta_list)
        ∧ ((frame_body a st f).1.is_loitering = true
            ↔ deltaAverage (recordAll st.x_history f.frame_num f.obj_meta_list)
                < st.threshold))
    ∧ (f.obj_meta_list.any isPerson = false →
        (frame_body a st f).1.avg_x_movement = st.avg_x_movement
          ∧ (frame_body a st f).1.is_loitering = st.is_loitering) := by
  have hg := frame_body_glob a st f
  refine ⟨fun hp => ?_, fun hno => ?_⟩
  · have hlen : (f.obj_meta_list.filter isPerson).length = 1 := by
      rcases Nat.lt_or_ge (f.obj_meta_list.filter isPerson).length 1 with h | h
      · have h0 := any_isPerson_eq_false_of_filter f.obj_meta_list (by omega)
        rw [hp] at h0
        exact absurd h0 (by decide)
      · omega
    have hfold : gFrame st.glob f
        = gEval f.frame_num
            { st.glob with x_history := recordAll st.x_history f.frame_num f.obj_meta_list } :=
      foldl_gObj_due_one_person f.frame_num st.glob f.obj_meta_list hlen
    rw [hfold, gEval_due _ _ hdue] at hg
    refine ⟨congrArg Glob.avg_x_movement hg, ?_⟩
    have hl : (frame_body a st f).1.is_loitering
        = decide (deltaAverage (recordAll st.x_history f.frame_num f.obj_meta_list)
            < st.threshold) := congrArg Glob.is_loitering hg
    rw [hl]
    simp
  · rw [gFrame_no_person st.glob f hno] at hg
    exact ⟨congrArg Glob.avg_x_movement hg, congrArg Glob.is_loitering hg⟩

/-- Witness of the amended C4: frame 64 with a Vehicle and one Person record,
after Person records at 1, 6 and 4 in frames 1, 2 and 3. -/
theorem due_frame_single_person_evaluated_witness :
    (frame_body blankDisplayMeta zigzagState
        (mkFrame 64 [recordOf 0 4, personAt 0])).1.avg_x_movement
      = deltaAverage (recordAll zigzagState.x_history 64 [recordOf 0 4, personAt 0])
    ∧ ((frame_body blankDisplayMeta zigzagState
          (mkFrame 64 [recordOf 0 4, personAt 0])).1.is_loitering = true
        ↔ deltaAverage (recordAll zigzagState.x_history 64 [recordOf 0 4, personAt 0])
            < zigzagState.threshold) :=
  (due_frame_single_person_evaluated blankDisplayMeta zigzagState
    (mkFrame 64 [recordOf 0 4, personAt 0]) (by decide) (by decide)).1 (by decide)

/-! ## The ring of positions over a run -/

theorem getD_eq_of_isSome (o : Option ℚ) (d e : ℚ) (h : o.isSome = true) :
    o.getD d = o.getD e := by
  cases o with
  | none => simp at h
  | some v => rfl

theorem gFrame_other_slot (g : Glob) (f : NvDsFrameMeta) (i : Nat)
    (hw : writesSlot i f = false) (he : evaluates f = false) :
    (gFrame g f).x_history i = g.x_history i := by
  cases hp : f.obj_meta_list.any isPerson
  · rw [gFrame_no_person g f hp]
  · have hne : ¬ f.frame_num % SIZE = i := by
      simpa [writesSlot, hp] using hw
    have hnd : ¬ (0 < f.frame_num ∧ f.frame_num % 64 = 0) := by
      simpa [evaluates, hp] using he
    rw [gFrame_not_due g f hnd]
    show recordAll g.x_history f.frame_num f.obj_meta_list i = g.x_history i
    rw [recordAll_apply, if_neg (fun h => hne h.symm)]

theorem gFrame_written_slot (g : Glob) (f : NvDsFrameMeta) (i : Nat)
    (hw : writesSlot i f = true) :
    (gFrame g f).x_history i = (lastPersonLeft f.obj_meta_list).getD 0 := by
  simp only [writesSlot, Bool.and_eq_true, decide_eq_true_eq] at hw
  rw [← hw.1, gFrame_own_slot]
  apply getD_eq_of_isSome
  rw [lastPersonLeft_isSome, hw.2]

theorem noEvalSince_concat (pre : List NvDsFrameMeta) (f : NvDsFrameMeta) (i : Nat) :
    noEvalSince (pre ++ [f]) i
      = (writesSlot i f || (!evaluates f && noEvalSince pre i)) := by
  unfold noEvalSince
  rw [List.reverse_append, List.reverse_singleton, List.singleton_append, List.takeWhile_cons]
  cases writesSlot i f <;> simp

/-- After any frames, a slot that no later evaluation has touched holds the
last Person left edge of its most recent writer, or its initial value. -/
theorem gRun_slot (g : Glob) (frames : List NvDsFrameMeta) (i : Nat)
    (h : noEvalSince frames i = true) :
    (gRun g frames).x_history i
      = match frames.reverse.find? (writesSlot i) with
        | some f => (lastPersonLeft f.obj_meta_list).getD 0
        | none => g.x_history i := by
  induction frames using List.reverseRecOn with
  | nil => rfl
  | append_singleton pre f ih =>
    rw [gRun_append, List.reverse_append, List.reverse_singleton, List.singleton_append,
      List.find?_cons]
    have e : gRun (gRun g pre) [f] = gFrame (gRun g pre) f := rfl
    rw [e]
    rw [noEvalSince_concat] at h
    cases hw : writesSlot i f
    · simp only [hw, Bool.false_or, Bool.and_eq_true, Bool.not_eq_true'] at h
      rw [gFrame_other_slot _ f i hw h.1, ih h.2]
    · exact gFrame_written_slot _ f i hw

theorem noEvalSince_slot_zero (frames : List NvDsFrameMeta) : noEvalSince frames 0 = true := by
  induction frames using List.reverseRecOn with
  | nil => rfl
  | append_singleton pre f ih =>
    rw [noEvalSince_concat, ih]
    cases hw : writesSlot 0 f
    · have he : evaluates f = false := by
        cases hp : f.obj_meta_list.any isPerson
        · simp [evaluates, hp]
        · have hne : ¬ f.frame_num % SIZE = 0 := by
            simpa [writesSlot, hp] using hw
          simp only [evaluates, hp, Bool.and_true, decide_eq_false_iff_not]
          exact fun hd => hne hd.2
      simp [he]
    · rfl

/-- C8, as the claim states it, fails: after frame 1 with a Person record at
5 and frame 64 with a Person record at 0, slot 2 holds 5, although no frame
with number 2 modulo 64 has been processed (the claim gives 0). -/
theorem history_slot_clobbered_by_evaluation :
    (run blankDisplayMeta initState clobberCalls).x_history 2 = 5
      ∧ expectedSlot (framesOf clobberCalls) 2 = 0 := by
  constructor
  · decide!
  · decide!

/-- C8, amended: after any sequence of frames processed from the initial
state, every slot `i` in `0..63` holds the left edge of the last Person record
of the most recent frame with number `i` modulo 64 that contained a Person
record (0 if there is none), provided no frame processed after that frame (no
frame at all if there is none) was a due frame containing a Person record;
for slot 0 this proviso always holds. -/
theorem history_slot_holds_last_write (a : NvDsDisplayMeta) (calls : List ProbeCall)
    (i : Nat) (_hi : i < 64) (hfresh : noEvalSince (framesOf calls) i = true) :
    (run a initState calls).x_history i = expectedSlot (framesOf calls) i
      ∧ (run a initState calls).x_history 0 = expectedSlot (framesOf calls) 0 := by
  have hg := congrArg Glob.x_history (run_glob a initState calls)
  have hx : (run a initState calls).x_history = (gRun initState.glob (framesOf calls)).x_history :=
    hg
  rw [hx]
  constructor
  · rw [gRun_slot _ _ i hfresh]
    rfl
  · rw [gRun_slot _ _ 0 (noEvalSince_slot_zero _)]
    rfl

/-- Witness of the amended C8: slot 1 after frame 1 with a Person record at
5, frame 64 with a Person record at 0 (which evaluates) and frame 65 with a
Person record at 7. -/
theorem history_slot_holds_last_write_witness :
    (run blankDisplayMeta initState rewriteCalls).x_history 1
        = expectedSlot (framesOf rewriteCalls) 1
      ∧ (run blankDisplayMeta initState rewriteCalls).x_history 0
        = expectedSlot (framesOf rewriteCalls) 0 :=
  history_slot_holds_last_write blankDisplayMeta rewriteCalls 1 (by decide) (by decide)

/-! ## Runs of frames with one Person record each -/

theorem gFrame_single_person (g : Glob) (n : Nat) (v : ℚ) :
    gFrame g (mkFrame n [personAt v])
      = gEval n { g with x_history := Function.update g.x_history (n % SIZE) v } := by
  simp only [gFrame, mkFrame, List.foldl_cons, List.foldl_nil]
  rw [gObj_person n g (personAt v) rfl]
  rfl

theorem personFrames_concat (pos : Nat → ℚ) (first count : Nat) :
    personFrames pos first (count + 1)
      = personFrames pos first count ++ [mkFrame (first + count) [personAt (pos (first + count))]] := by
  simp [personFrames, List.range'_1_concat]

theorem personFrames_cons (pos : Nat → ℚ) (first count : Nat) :
    personFrames pos first (count + 1)
      = mkFrame first [personAt (pos first)] :: personFrames pos (first + 1) count := by
  simp [personFrames, List.range'_succ]

/-- Over at most 64 consecutive frames off the due cadence, each with one
Person record, only the history changes: the slot of each frame holds its
left edge, the other slots keep their values. -/
theorem gRun_personFrames (pos : Nat → ℚ) (first count : Nat) (g : Glob) (hk : count ≤ 64)
    (hnd : ∀ n, first ≤ n → n < first + count → ¬ (0 < n ∧ n % 64 = 0)) :
    (gRun g (personFrames pos first count)).avg_x_movement = g.avg_x_movement
      ∧ (gRun g (personFrames pos first count)).is_loitering = g.is_loitering
      ∧ (gRun g (personFrames pos first count)).threshold = g.threshold
      ∧ (∀ n, first ≤ n → n < first + count →
          (gRun g (personFrames pos first count)).x_history (n % 64) = pos n)
      ∧ (∀ j, (∀ n, first ≤ n → n < first + count → n % 64 ≠ j) →
          (gRun g (personFrames pos first count)).x_history j = g.x_history j) := by
  induction count with
  | zero =>
    refine ⟨rfl, rfl, rfl, ?_, fun j _ => rfl⟩
    intro n h1 h2
    omega
  | succ k ih =>
    have ih2 := ih (by omega) (fun n h1 h2 => hnd n h1 (by omega))
    obtain ⟨i1, i2, i3, i4, i5⟩ := ih2
    have hlast : ¬ (0 < first + k ∧ (first + k) % 64 = 0) := hnd _ (by omega) (by omega)
    have e : gRun g (personFrames pos first (k + 1))
        = { gRun g (personFrames pos first k) with
              x_history := Function.update (gRun g (personFrames pos first k)).x_history
                ((first + k) % SIZE) (pos (first + k)) } := by
      rw [personFrames_concat, gRun_append]
      show gFrame _ _ = _
      rw [gFrame_single_person, gEval_not_due _ _ hlast]
    rw [e]
    refine ⟨i1, i2, i3, ?_, ?_⟩
    · intro n h1 h2
      show Function.update _ _ _ _ = _
      by_cases hn : n = first + k
      · subst hn
        exact Function.update_same _ _ _
      · have hne : n % 64 ≠ (first + k) % SIZE := by
          simp only [SIZE]
          omega
        rw [Function.update_noteq hne]
        exact i4 n h1 (by omega)
    · intro j hj
      show Function.update _ _ _ _ = _
      have hne : j ≠ (first + k) % SIZE := fun h => hj (first + k) (by omega) (by omega) h.symm
      rw [Function.update_noteq hne]
      exact i5 j (fun n h1 h2 => hj n h1 (by omega))

theorem deltaAverage_split (p : Buf) :
    deltaAverage p = (|p 1 - p 0| + ∑ i in Finset.Icc 2 63, |p i - p (i - 1)|) / 63 := by
  unfold deltaAverage
  have hs : Finset.Icc 1 (SIZE - 1) = insert 1 (Finset.Icc 2 63) := by
    ext k
    simp only [SIZE, Finset.mem_Icc, Finset.mem_insert]
    omega
  have hnot : (1 : Nat) ∉ Finset.Icc 2 63 := by simp
  rw [hs, Finset.sum_insert hnot]
  norm_num

theorem deltaAverage_const_steps (p : Buf) (c : ℚ)
    (h : ∀ i, 2 ≤ i → i ≤ 63 → |p i - p (i - 1)| = c) :
    deltaAverage p = (|p 1 - p 0| + 62 * c) / 63 := by
  rw [deltaAverage_split]
  have hsum : ∑ i in Finset.Icc 2 63, |p i - p (i - 1)| = ∑ _i in Finset.Icc 2 63, c := by
    apply Finset.sum_congr rfl
    intro i hi
    simp only [Finset.mem_Icc] at hi
    exact h i hi.1 hi.2
  rw [hsum, Finset.sum_const]
  simp

theorem gRun_linear (v : ℚ) :
    (gRun initState.glob
        (personFrames linearPos 0 64 ++ [mkFrame 64 [personAt v]])).avg_x_movement
      = (62 + |1 - v|) / 63
    ∧ (gRun initState.glob
        (personFrames linearPos 0 64 ++ [mkFrame 64 [personAt v]])).is_loitering
      = decide ((62 + |1 - v|) / 63 < 5) := by
  obtain ⟨_, _, h3, h4, _⟩ := gRun_personFrames linearPos 0 64 initState.glob (le_refl _)
    (fun n _ h2 => by omega)
  have e : gRun initState.glob (personFrames linearPos 0 64 ++ [mkFrame 64 [personAt v]])
      = gFrame (gRun initState.glob (personFrames linearPos 0 64)) (mkFrame 64 [personAt v]) := by
    rw [gRun_append]
    rfl
  have hslot : ∀ i, 1 ≤ i → i ≤ 63 →
      Function.update (gRun initState.glob (personFrames linearPos 0 64)).x_history (64 % SIZE) v i
        = (i : ℚ) := by
    intro i h1 h2
    have hne : i ≠ 64 % SIZE := by
      simp only [SIZE]
      omega
    rw [Function.update_noteq hne]
    have := h4 i (by omega) (by omega)
    rw [Nat.mod_eq_of_lt (by omega)] at this
    exact this
  have hzero :
      Function.update (gRun initState.glob (personFrames linearPos 0 64)).x_history (64 % SIZE) v 0
        = v := Function.update_same _ _ _
  have havg : deltaAverage
      (Function.update (gRun initState.glob (personFrames linearPos 0 64)).x_history (64 % SIZE) v)
        = (62 + |1 - v|) / 63 := by
    rw [deltaAverage_const_steps _ 1]
    · rw [hslot 1 (le_refl _) (by omega), hzero]
      norm_num
      ring
    · intro i h1 h2
      rw [hslot i (by omega) h2, hslot (i - 1) (by omega) (by omega)]
      have hc : ((i - 1 : Nat) : ℚ) = (i : ℚ) - 1 := by
        rw [Nat.cast_sub (by omega)]
        simp
      rw [hc]
      norm_num
  rw [e, gFrame_single_person, gEval_due 64 _ (by decide)]
  dsimp only
  rw [havg, h3]
  exact ⟨rfl, rfl⟩

theorem framesOf_append (xs ys : List ProbeCall) :
    framesOf (xs ++ ys) = framesOf xs ++ framesOf ys := by
  simp [framesOf]

theorem framesOf_oneFrame_map (objs : Nat → List NvDsObjectMeta) (ns : List Nat) :
    framesOf (ns.map (fun n => oneFrame n (objs n))) = ns.map (fun n => mkFrame n (objs n)) := by
  induction ns with
  | nil => rfl
  | cons n rest ih =>
    have e : framesOf ((n :: rest).map (fun n => oneFrame n (objs n)))
        = mkFrame n (objs n) :: framesOf (rest.map (fun n => oneFrame n (objs n))) := by
      simp [framesOf, oneFrame]
    rw [e, ih]
    rfl

theorem framesOf_linearCalls (v : ℚ) :
    framesOf (linearCalls v) = personFrames linearPos 0 64 ++ [mkFrame 64 [personAt v]] := by
  unfold linearCalls
  rw [framesOf_append, framesOf_oneFrame_map (fun n => [personAt (linearPos n)])]
  rfl

/-- C6, as the claim states it, fails: after frames 0..63 with left edges
0..63, frame 64 with a Person record at 1000 leaves `avg_x_movement` at
1061/63, not 1, and `is_loitering` false. -/
theorem linear_run_depends_on_frame_64 :
    (run blankDisplayMeta initState (linearCalls 1000)).avg_x_movement = 1061 / 63
      ∧ (run blankDisplayMeta initState (linearCalls 1000)).avg_x_movement ≠ 1
      ∧ (run blankDisplayMeta initState (linearCalls 1000)).is_loitering = false := by
  refine ⟨by decide!, by decide!, by decide!⟩

/-- C6, amended: from the initial state (zero history, average 0, flag false,
threshold 5), after frames 0..63 each with one Person record whose left edge
is the frame number, frame 64 with one Person record at `v` leaves
`avg_x_movement` equal to `(62 + |1 - v|) / 63` and `is_loitering` true
exactly when that is below 5; in particular the average is 1 when `v` is 0
or 2. -/
theorem linear_run_then_frame_64 (a : NvDsDisplayMeta) (calls : List ProbeCall) (v : ℚ)
    (hframes : framesOf calls = personFrames linearPos 0 64 ++ [mkFrame 64 [personAt v]]) :
    (run a initState calls).avg_x_movement = (62 + |1 - v|) / 63
      ∧ ((run a initState calls).is_loitering = true ↔ (62 + |1 - v|) / 63 < 5)
      ∧ ((v = 0 ∨ v = 2) → (run a initState calls).avg_x_movement = 1) := by
  have hg := run_glob a initState calls
  rw [hframes] at hg
  have h1 : (run a initState calls).avg_x_movement = (62 + |1 - v|) / 63 :=
    (congrArg Glob.avg_x_movement hg).trans (gRun_linear v).1
  have h2 : (run a initState calls).is_loitering = decide ((62 + |1 - v|) / 63 < 5) :=
    (congrArg Glob.is_loitering hg).trans (gRun_linear v).2
  refine ⟨h1, ?_, ?_⟩
  · rw [h2]
    simp
  · rw [h1]
    rintro (h | h)
    · subst h
      norm_num
    · subst h
      norm_num

/-- Witness of the amended C6: single-frame calls, frame 64 with its Person
record at 2. -/
theorem linear_run_then_frame_64_witness :
    (run blankDisplayMeta initState (linearCalls 2)).avg_x_movement = (62 + |1 - 2|) / 63
      ∧ ((run blankDisplayMeta initState (linearCalls 2)).is_loitering = true
          ↔ (62 + |1 - (2 : ℚ)|) / 63 < 5)
      ∧ (((2 : ℚ) = 0 ∨ (2 : ℚ) = 2)
          → (run blankDisplayMeta initState (linearCalls 2)).avg_x_movement = 1) :=
  linear_run_then_frame_64 blankDisplayMeta (linearCalls 2) 2 (framesOf_linearCalls 2)

theorem oscillating_opposite (x : ℚ) (phase : Bool) (n m : Nat) (h : n % 2 ≠ m % 2) :
    |oscillating x phase n - oscillating x phase m| = 40 := by
  unfold oscillating
  have hn : n % 2 = 0 ∨ n % 2 = 1 := by omega
  have hm : m % 2 = 0 ∨ m % 2 = 1 := by omega
  have hA : |x + 20 - (x - 20)| = 40 := by
    have e : x + 20 - (x - 20) = 40 := by ring
    rw [e]
    norm_num
  have hB : |x - 20 - (x + 20)| = 40 := by
    have e : x - 20 - (x + 20) = -40 := by ring
    rw [e]
    norm_num
  rcases hn with hn | hn <;> rcases hm with hm | hm
  · omega
  · rw [hn, hm]
    cases phase
    · exact hB
    · exact hA
  · rw [hn, hm]
    cases phase
    · exact hA
    · exact hB
  · omega

theorem gRun_oscillating (g : Glob) (x : ℚ) (phase : Bool) (hthr : g.threshold = 5) :
    (gRun g (personFrames (oscillating x phase) 64 65)).avg_x_movement = 40
      ∧ (gRun g (personFrames (oscillating x phase) 64 65)).is_loitering = false := by
  have e : gRun g (personFrames (oscillating x phase) 64 65)
      = gFrame
          (gRun (gFrame g (mkFrame 64 [personAt (oscillating x phase 64)]))
            (personFrames (oscillating x phase) 65 63))
          (mkFrame 128 [personAt (oscillating x phase 128)]) := by
    rw [personFrames_cons, personFrames_concat]
    show gRun (gFrame g _) (_ ++ _) = _
    rw [gRun_append]
    rfl
  obtain ⟨_, _, h3, h4, _⟩ := gRun_personFrames (oscillating x phase) 65 63
    (gFrame g (mkFrame 64 [personAt (oscillating x phase 64)])) (by omega)
    (fun n h1 h2 => by omega)
  rw [gFrame_threshold, hthr] at h3
  have hslot : ∀ i, 1 ≤ i → i ≤ 63 →
      Function.update
        (gRun (gFrame g (mkFrame 64 [personAt (oscillating x phase 64)]))
          (personFrames (oscillating x phase) 65 63)).x_history
        (128 % SIZE) (oscillating x phase 128) i
        = oscillating x phase (64 + i) := by
    intro i h1 h2
    have hne : i ≠ 128 % SIZE := by
      simp only [SIZE]
      omega
    rw [Function.update_noteq hne]
    have := h4 (64 + i) (by omega) (by omega)
    have hmod : (64 + i) % 64 = i := by omega
    rw [hmod] at this
    exact this
  have hzero :
      Function.update
        (gRun (gFrame g (mkFrame 64 [personAt (oscillating x phase 64)]))
          (personFrames (oscillating x phase) 65 63)).x_history
        (128 % SIZE) (oscillating x phase 128) 0
        = oscillating x phase 128 := Function.update_same _ _ _
  have havg : deltaAverage
      (Function.update
        (gRun (gFrame g (mkFrame 64 [personAt (oscillating x phase 64)]))
          (personFrames (oscillating x phase) 65 63)).x_history
        (128 % SIZE) (oscillating x phase 128)) = 40 := by
    rw [deltaAverage_const_steps _ 40]
    · rw [hslot 1 (le_refl _) (by omega), hzero,
        oscillating_opposite x phase (64 + 1) 128 (by decide)]
      norm_num
    · intro i h1 h2
      rw [hslot i (by omega) h2, hslot (i - 1) (by omega) (by omega)]
      exact oscillating_opposite x phase _ _ (by omega)
  rw [e, gFrame_single_person, gEval_due 128 _ (by decide)]
  dsimp only
  rw [havg, h3]
  refine ⟨rfl, ?_⟩
  rw [decide_eq_false_iff_not]
  norm_num

theorem framesOf_oscillatingCalls (x : ℚ) (phase : Bool) :
    framesOf (oscillatingCalls x phase) = personFrames (oscillating x phase) 64 65 := by
  unfold oscillatingCalls
  rw [framesOf_oneFrame_map (fun n => [personAt (oscillating x phase n)])]
  rfl

/-- C7: from any state with threshold 5 (whatever the earlier frames and the
evaluation at frame 64 left in the history), after frames 64..128 each with
one Person record whose left edge alternates between `x + 20` and `x - 20`,
`avg_x_movement` is 40 and `is_loitering` is false. -/
theorem oscillating_run_average (a : NvDsDisplayMeta) (st : State) (calls : List ProbeCall)
    (x : ℚ) (phase : Bool) (hthr : st.threshold = 5)
    (hframes : framesOf calls = personFrames (oscillating x phase) 64 65) :
    (run a st calls).avg_x_movement = 40 ∧ (run a st calls).is_loitering = false := by
  have hg := run_glob a st calls
  rw [hframes] at hg
  have h := gRun_oscillating st.glob x phase hthr
  exact ⟨(congrArg Glob.avg_x_movement hg).trans h.1,
    (congrArg Glob.is_loitering hg).trans h.2⟩

/-- Witness of C7: the state left by frames 1, 2 and 3, then single-frame
calls for frames 64..128 oscillating around 100. -/
theorem oscillating_run_average_witness :
    (run blankDisplayMeta zigzagState (oscillatingCalls 100 true)).avg_x_movement = 40
      ∧ (run blankDisplayMeta zigzagState (oscillatingCalls 100 true)).is_loitering = false :=
  oscillating_run_average blankDisplayMeta zigzagState (oscillatingCalls 100 true) 100 true
    (by decide!) (framesOf_oscillatingCalls 100 true)

/-! ## The annotation text -/

theorem obj_loop_nil (n : Nat) (st : State) : obj_loop n st [] = (st, []) := rfl

/-- The annotation of a frame without records is formatted from the average
and the local `temp` as they stand on entry to the frame. -/
theorem frame_body_empty_annotation (a : NvDsDisplayMeta) (st : State) (n : Nat) :
    annotationText (frame_body a st (mkFrame n [])).2
      = some [("left = %lf ", st.avg_x_movement), ("top = %lf ", st.temp)] := by
  simp [annotationText, frame_body, mkFrame, obj_loop, fill_display_meta]

/-- C11: evaluation at the failing input.  A first call delivers frame 1 with
a Person record at 7 and annotates it with `top = 7`; a second call delivers
frame 2 without records.  Its annotation is formatted from the stored average
(0, nothing evaluated yet) and from `temp`, a local of the probe without
initialiser: the `top` value is whatever `temp` holds on entry to the second
call (`t`), not the 7 recorded by the earlier frame. -/
theorem empty_frame_annotation_reads_entry_temp (t : ℚ) :
    (osd_sink_pad_buffer_probe blankDisplayMeta initState 0
        [mkFrame 1 [personAt 7]]).2.map annotationText
      = [some [("left = %lf ", 0), ("top = %lf ", 7)]]
    ∧ (osd_sink_pad_buffer_probe blankDisplayMeta afterPersonAtSeven t
        [mkFrame 2 []]).2.map annotationText
      = [some [("left = %lf ", 0), ("top = %lf ", t)]] := by
  constructor
  · decide!
  · have h : afterPersonAtSeven.avg_x_movement = 0 := by decide!
    simp only [osd_sink_pad_buffer_probe, frame_loop, List.map_cons, List.map_nil,
      frame_body_empty_annotation, h]

/-! ## The colour hint -/

theorem colour_hint_eq (st : State) (obj : NvDsObjectMeta) :
    colour_hint st obj = if st.is_loitering = true then hinted obj else obj := rfl

theorem obj_body_snd (n : Nat) (st : State) (obj : NvDsObjectMeta) :
    (obj_body n st obj).2
      = if isPerson obj && (gObj n st.glob obj).is_loitering then hinted obj else obj := by
  have hflag : (obj_body n st obj).1.is_loitering = (gObj n st.glob obj).is_loitering :=
    congrArg Glob.is_loitering (obj_body_glob n st obj)
  by_cases hp : obj.class_id = PGIE_CLASS_ID_PERSON
  · have hperson : isPerson obj = true := by simpa [isPerson] using hp
    have e : (obj_body n st obj).2 = colour_hint (obj_body n st obj).1 obj := by
      simp only [obj_body, hp, if_true]
    rw [e, colour_hint_eq, hflag, hperson]
    simp
  · have hperson : isPerson obj = false := by simpa [isPerson] using hp
    have e : (obj_body n st obj).2 = obj := by
      simp only [obj_body, hp, if_false]
    rw [e, hperson]
    simp

theorem obj_loop_snd (n : Nat) (st : State) (objs : List NvDsObjectMeta) :
    (obj_loop n st objs).2 = gHints n st.glob objs := by
  induction objs generalizing st with
  | nil => rfl
  | cons o rest ih =>
    simp only [obj_loop, gHints]
    rw [ih, obj_body_snd, obj_body_glob]

theorem frame_body_objs (a : NvDsDisplayMeta) (st : State) (f : NvDsFrameMeta) :
    (frame_body a st f).2.obj_meta_list = gHints f.frame_num st.glob f.obj_meta_list := by
  simp only [frame_body, obj_loop_snd]

theorem gObj_flag_not_due (n : Nat) (g : Glob) (obj : NvDsObjectMeta)
    (h : ¬ (0 < n ∧ n % 64 = 0)) : (gObj n g obj).is_loitering = g.is_loitering := by
  cases hp : isPerson obj
  · rw [gObj_not_person n g obj hp]
  · rw [gObj_person n g obj hp, gEval_not_due n _ h]

theorem gHints_not_due (n : Nat) (g : Glob) (objs : List NvDsObjectMeta)
    (h : ¬ (0 < n ∧ n % 64 = 0)) :
    gHints n g objs
      = objs.map (fun o => if isPerson o && g.is_loitering then hinted o else o) := by
  induction objs generalizing g with
  | nil => rfl
  | cons o rest ih =>
    simp only [gHints, List.map_cons]
    rw [ih, gObj_flag_not_due n g o h]

theorem gHints_no_person (n : Nat) (g : Glob) (objs : List NvDsObjectMeta)
    (h : objs.any isPerson = false) : gHints n g objs = objs := by
  induction objs generalizing g with
  | nil => rfl
  | cons o rest ih =>
    simp only [List.any_cons, Bool.or_eq_false_iff] at h
    simp only [gHints, h.1, Bool.false_and]
    rw [ih _ h.2]
    simp

theorem map_hint_no_person (b : Bool) (objs : List NvDsObjectMeta)
    (h : objs.any isPerson = false) :
    objs.map (fun o => if isPerson o && b then hinted o else o) = objs := by
  induction objs with
  | nil => rfl
  | cons o rest ih =>
    simp only [List.any_cons, Bool.or_eq_false_iff] at h
    simp only [List.map_cons, h.1, Bool.false_and]
    rw [ih h.2]
    simp

theorem gHints_due_one_person (n : Nat) (g : Glob) (objs : List NvDsObjectMeta)
    (hdue : 0 < n ∧ n % 64 = 0) (h : (objs.filter isPerson).length = 1) :
    gHints n g objs
      = objs.map (fun o =>
          if isPerson o && decide (deltaAverage (recordAll g.x_history n objs) < g.threshold)
          then hinted o else o) := by
  induction objs generalizing g with
  | nil => simp at h
  | cons o rest ih =>
    simp only [gHints, List.map_cons]
    rw [recordAll_cons]
    cases hp : isPerson o
    · simp only [List.filter_cons, hp] at h
      rw [gObj_not_person n g o hp, ih g (by simpa using h)]
      simp
    · simp only [List.filter_cons, hp, if_true, List.length_cons, add_left_eq_self] at h
      have hno := any_isPerson_eq_false_of_filter rest h
      rw [gHints_no_person n _ rest hno, map_hint_no_person _ rest hno,
        recordAll_no_person _ n rest hno, gObj_person n g o hp, gEval_due n _ hdue]
      simp

theorem gHints_forall₂ (n : Nat) (g : Glob) (objs : List NvDsObjectMeta) :
    List.Forall₂ (fun o o2 => o2 = o ∨ (isPerson o = true ∧ o2 = hinted o))
      objs (gHints n g objs) := by
  induction objs generalizing g with
  | nil => exact List.Forall₂.nil
  | cons o rest ih =>
    simp only [gHints]
    refine List.Forall₂.cons ?_ (ih _)
    cases hp : isPerson o
    · left
      simp
    · cases (gObj n g o).is_loitering
      · left
        simp
      · right
        simp

theorem gHints_two_persons_due (n : Nat) (g : Glob) (o1 o2 : NvDsObjectMeta)
    (hdue : 0 < n ∧ n % 64 = 0) (h1 : isPerson o1 = true) (h2 : isPerson o2 = true) :
    gHints n g [o1, o2]
      = [if decide (deltaAverage (Function.update g.x_history (n % SIZE) o1.rect_params.left)
              < g.threshold) = true
          then hinted o1 else o1,
         if decide (deltaAverage
              (Function.update
                (process_history
                  (Function.update g.x_history (n % SIZE) o1.rect_params.left)).2
                (n % SIZE) o2.rect_params.left) < g.threshold) = true
          then hinted o2 else o2] := by
  simp only [gHints, h1, h2, Bool.true_and]
  rw [gObj_person n g o1 h1, gEval_due n _ hdue, gObj_person n _ o2 h2, gEval_due n _ hdue]

/-- C12, as the claim states it, fails.  Frame 64 with a Person record at 0
sets `is_loitering`; frame 65, which is not a due frame, then turns the black
border of its Person record blue.  And the due frame 64 with two Person
records, processed from the initial state, turns the border of both blue. -/
theorem colour_hint_applied_off_cadence :
    afterFirstEvaluation.is_loitering = true
    ∧ ¬ (0 < (mkFrame 65 [personAt 3]).frame_num ∧ (mkFrame 65 [personAt 3]).frame_num % 64 = 0)
    ∧ (mkFrame 65 [personAt 3]).obj_meta_list.map (fun o => o.rect_params.border_color)
        = [{ red := 0, green := 0, blue := 0, alpha := 0 }]
    ∧ (frame_body blankDisplayMeta afterFirstEvaluation
          (mkFrame 65 [personAt 3])).2.obj_meta_list.map (fun o => o.rect_params.border_color)
        = [{ red := 0, green := 0, blue := 1, alpha := 0 }]
    ∧ (frame_body blankDisplayMeta initState
          (mkFrame 64 [personAt 0, personAt 0])).2.obj_meta_list.map
            (fun o => o.rect_params.border_color)
        = [{ red := 0, green := 0, blue := 1, alpha := 0 },
           { red := 0, green := 0, blue := 1, alpha := 0 }] := by
  refine ⟨by decide!, by decide, by decide, by decide!, ?_⟩
  rw [frame_body_objs]
  have e : (mkFrame 64 [personAt 0, personAt 0]).obj_meta_list = [personAt 0, personAt 0] := rfl
  have e2 : (mkFrame 64 [personAt 0, personAt 0]).frame_num = 64 := rfl
  rw [e, e2, gHints_two_persons_due 64 initState.glob (personAt 0) (personAt 0) (by decide) rfl rfl,
    process_history_snd_eq, ← process_history_fst, ← process_history_fst]
  decide!

/-- C12, amended: the colour hint follows `is_loitering` on every frame.
Processing a frame changes at most the border colour of Person records, and
only to red 0, blue 1.  On a frame whose number is not a positive multiple of
64, every Person record gets that colour when `is_loitering` is set before the
frame, and no record changes when it is not.  On a due frame with exactly one
Person record, at most that record changes, exactly when the evaluation leaves
`is_loitering` set. -/
theorem colour_hint_follows_flag (a : NvDsDisplayMeta) (st : State) (f : NvDsFrameMeta) :
    List.Forall₂ (fun o o2 => o2 = o ∨ (isPerson o = true ∧ o2 = hinted o))
        f.obj_meta_list (frame_body a st f).2.obj_meta_list
    ∧ (¬ (0 < f.frame_num ∧ f.frame_num % 64 = 0) →
        (frame_body a st f).2.obj_meta_list
          = f.obj_meta_list.map
              (fun o => if isPerson o && st.is_loitering then hinted o else o))
    ∧ ((0 < f.frame_num ∧ f.frame_num % 64 = 0) →
        (f.obj_meta_list.filter isPerson).length = 1 →
        (frame_body a st f).2.obj_meta_list
          = f.obj_meta_list.map
              (fun o =>
                if isPerson o
                    && decide (deltaAverage (recordAll st.x_history f.frame_num f.obj_meta_list)
                        < st.threshold)
                then hinted o else o)) := by
  rw [frame_body_objs]
  refine ⟨gHints_forall₂ _ _ _, fun hnd => ?_, fun hdue hone => ?_⟩
  · exact gHints_not_due _ _ _ hnd
  · exact gHints_due_one_person _ _ _ hdue hone

/-- Witness of the amended C12: frame 65 with a Vehicle and a Person record,
after the first evaluation has set the flag. -/
theorem colour_hint_follows_flag_witness :
    (frame_body blankDisplayMeta afterFirstEvaluation
        (mkFrame 65 [recordOf 0 4, personAt 3])).2.obj_meta_list
      = [recordOf 0 4, personAt 3].map
          (fun o => if isPerson o && afterFirstEvaluation.is_loitering then hinted o else o) :=
  (colour_hint_follows_flag blankDisplayMeta afterFirstEvaluation
    (mkFrame 65 [recordOf 0 4, personAt 3])).2.1 (by decide)

end NvdsLoiter
